import Mathlib

/-!
Shallow embedding of the tile-grid map engine of this repository
(`map/src/lib.rs`) together with the editor's screen-to-grid mapping
(`editor/src/main.rs`, `mouse_input`) and a model of the persistence
codec, with theorems checking the design specification's claims.

Modelling conventions:
* `Vec<T>` becomes `List T`; `usize` becomes `Nat`; `i32` becomes `ℤ`
  (the `+ 1` overflow at `i32::MAX` is not modelled).
* `usize` subtraction is checked: `csub` returns `none` exactly where the
  Rust expression `a - b` underflows, which is a panic in a debug build
  (release builds wrap; the spots where that matters are noted inline).
* Fallible computations return `Option`.
* The editor's `f32` arithmetic is modelled with exact rational
  arithmetic; every concrete input used below is exactly representable
  and every operation on it is exact in `f32`, so the model is faithful
  at those inputs.  The saturating `as i32` cast is modelled as
  truncation toward zero (saturation is irrelevant in the ranges used).
-/

inductive TileType
  | Walkable
  | Blocked
deriving DecidableEq

inductive ObjectType
  | Wall
  | Door
deriving DecidableEq

/-- Rotation quaternion (`bevy::prelude::Quat`): four components. -/
structure Quat where
  x : ℚ
  y : ℚ
  z : ℚ
  w : ℚ
deriving DecidableEq

structure Object where
  object_type : ObjectType
  rotation : Quat
deriving DecidableEq

structure FloorObject where
  object_type : ObjectType
deriving DecidableEq

structure Connection where
  map : String
  spawn : Nat × Nat
deriving DecidableEq

structure Tile where
  tile_type : TileType
  object : Option Object
  floor_object : Option FloorObject
  connection : Option Connection
deriving DecidableEq

/-- `Tile::default()`: Blocked, with no object, floor object or connection. -/
def Tile.default : Tile := ⟨TileType.Blocked, none, none, none⟩

structure Map where
  tiles : List (List Tile)
deriving DecidableEq

/-- Checked `usize` subtraction: `none` where Rust `a - b` underflows
(a panic in a debug build). -/
def csub (a b : Nat) : Option Nat :=
  if b ≤ a then some (a - b) else none

/-- First stanza of `Map::expand_to`:
`if (self.tiles.len() as i32) < x + 1 { self.tiles.resize(x + 1, vec![Tile::default(); self.tiles.get(0).unwrap_or(&vec![]).len()]) }`.
The guard ensures the new length exceeds the old one, so `Vec::resize`
appends default rows of the current row-0 width. -/
def growRows (x : ℤ) (tiles : List (List Tile)) : List (List Tile) :=
  if (tiles.length : ℤ) < x + 1 then
    tiles ++ List.replicate ((x + 1).toNat - tiles.length)
      (List.replicate (tiles.headD []).length Tile.default)
  else tiles

/-- Second stanza of `Map::expand_to`, per row:
`if (row.len() as i32) < y + 1 { row.resize(y + 1, Tile::default()) }`. -/
def widenRow (y : ℤ) (row : List Tile) : List Tile :=
  if (row.length : ℤ) < y + 1 then
    row ++ List.replicate ((y + 1).toNat - row.length) Tile.default
  else row

/-- Third stanza of `Map::expand_to`:
`if 0 > x + 1 { for _ in (x + 1)..0 { self.tiles.insert(0, vec![Tile::default(); self.tiles.get(0).unwrap_or(&vec![]).len()]) } }`.
Each inserted row has the width of the current row 0; after the first
insertion that is the row just inserted, so every inserted row has the
width the grid had when the loop started. -/
def frontRows (x : ℤ) (tiles : List (List Tile)) : List (List Tile) :=
  if 0 > x + 1 then
    List.replicate (-(x + 1)).toNat
      (List.replicate (tiles.headD []).length Tile.default) ++ tiles
  else tiles

/-- Fourth stanza of `Map::expand_to`, per row:
`if 0 > y + 1 { for _ in (y + 1)..0 { row.insert(0, Tile::default()) } }`. -/
def frontCols (y : ℤ) (tiles : List (List Tile)) : List (List Tile) :=
  if 0 > y + 1 then
    tiles.map (fun row => List.replicate (-(y + 1)).toNat Tile.default ++ row)
  else tiles

/-- `Map::expand_to(&mut self, y: i32, x: i32)`: the four stanzas in
source order.  Note the roles of the parameters in the source: `y` is
compared against `row.len()` (the column axis) and `x` against
`self.tiles.len()` (the row axis). -/
def Map.expand_to (m : Map) (y x : ℤ) : Map :=
  ⟨frontCols y (frontRows x ((growRows x m.tiles).map (widenRow y)))⟩

/-- `tile.tile_type != TileType::Blocked`. -/
def tileHasContent (t : Tile) : Bool := t.tile_type ≠ TileType.Blocked

/-- `row.iter().any(|tile| tile.tile_type != TileType::Blocked)`. -/
def rowHasContent (row : List Tile) : Bool := row.any tileHasContent

/-- `l.iter().enumerate().find(|(_, a)| p a).map(|(i, _)| i)`:
index of the first element satisfying `p`. -/
def firstIdx? (p : α → Bool) : List α → Option Nat
  | [] => none
  | a :: as => if p a then some 0 else (firstIdx? p as).map (· + 1)

/-- `l.iter().enumerate().rev().find(|(_, a)| p a).map(|(i, _)| i)`:
index of the last element satisfying `p`. -/
def lastIdx? (p : α → Bool) : List α → Option Nat
  | [] => none
  | a :: as =>
    match lastIdx? p as with
    | some i => some (i + 1)
    | none => if p a then some 0 else none

/-- `Iterator::min` over a list of naturals. -/
def minN? : List Nat → Option Nat
  | [] => none
  | a :: as =>
    match minN? as with
    | none => some a
    | some b => some (min a b)

/-- `Iterator::max` over a list of naturals. -/
def maxN? : List Nat → Option Nat
  | [] => none
  | a :: as =>
    match maxN? as with
    | none => some a
    | some b => some (max a b)

/-- The per-row values whose maximum is `vertical_upper_bound` in
`Map::trim`: for each row, the index of its last non-Blocked tile,
defaulting to `row.len() - 1`.  The subtraction sits inside
`unwrap_or`, whose argument Rust evaluates eagerly for every row, so it
underflows on a zero-length row. -/
def rowUppers : List (List Tile) → Option (List Nat)
  | [] => some []
  | row :: rest => do
    let d ← csub row.length 1
    let v := (lastIdx? tileHasContent row).getD d
    let vs ← rowUppers rest
    pure (v :: vs)

/-- The fallback of `vertical_upper_bound`:
`self.tiles.get(0).map(|row| row.len() - 1).unwrap_or(0)` — the
subtraction happens only when a row 0 exists. -/
def vubDefault (tiles : List (List Tile)) : Option Nat :=
  match tiles.head? with
  | none => some 0
  | some row => csub row.length 1

/-- The four bounds computed by `Map::trim`
(`horizontal_lower_bound`, `horizontal_upper_bound`,
`vertical_lower_bound`, `vertical_upper_bound`), in evaluation order.
`self.tiles.len() - 1` is the eagerly evaluated `unwrap_or` argument:
on an empty grid it underflows. -/
def Map.trimBounds (m : Map) : Option (Nat × Nat × Nat × Nat) := do
  let hlb := (firstIdx? rowHasContent m.tiles).getD 0
  let hubD ← csub m.tiles.length 1
  let hub := (lastIdx? rowHasContent m.tiles).getD hubD
  let vlb := (minN? (m.tiles.map
    (fun row => (firstIdx? tileHasContent row).getD 0))).getD 0
  let us ← rowUppers m.tiles
  let vubD ← vubDefault m.tiles
  let vub := (maxN? us).getD vubD
  pure (hlb, hub, vlb, vub)

/-- `*i >= lower && *i <= upper` on an enumerated index. -/
def idxIn (lo hi i : Nat) : Bool := decide (lo ≤ i ∧ i ≤ hi)

/-- The rebuild step of `Map::trim`: keep the rows with index in
`[hlb, hub]` and, within each kept row, the tiles with index in
`[vlb, vub]`. -/
def Map.restrict (m : Map) (hlb hub vlb vub : Nat) : Map :=
  ⟨(m.tiles.enum.filter (fun p => idxIn hlb hub p.1)).map
    (fun p => (p.2.enum.filter (fun q => idxIn vlb vub q.1)).map Prod.snd)⟩

/-- `Map::trim`: compute the four bounds, then rebuild. -/
def Map.trim (m : Map) : Option Map := do
  let (hlb, hub, vlb, vub) ← m.trimBounds
  pure (m.restrict hlb hub vlb vub)

/-- `Map::pad`: build a `(length + 2·padding) × (width + 2·padding)` grid
of default tiles, then copy each original tile to its offset position.
`List.set` ignores out-of-range writes; for the rectangular grids
considered here every write is in range (Rust would panic otherwise). -/
def Map.pad (m : Map) (padding : Nat) : Map :=
  let length := m.tiles.length
  let width := (m.tiles.headD []).length
  let new0 := List.replicate (length + padding * 2)
    (List.replicate (width + padding * 2) Tile.default)
  ⟨m.tiles.enum.foldl (fun acc p =>
    p.2.enum.foldl (fun acc2 q =>
      acc2.set (p.1 + padding)
        ((acc2.getD (p.1 + padding) []).set (q.1 + padding) q.2)) acc) new0⟩

/-- Truncation toward zero: the `f32 as i32` cast of the editor
(saturation aside). -/
def truncQ (q : ℚ) : ℤ := if 0 ≤ q then ⌊q⌋ else ⌈q⌉

/-- The x-axis cell computation of `editor::mouse_input`:
`x = cursor_x - width*0.5; x += camera.translation.x;
x *= camera.scale.x; x = x.floor() / 32.0;` and finally `x as i32`. -/
def mouse_cell_x (cursorX width camX scaleX : ℚ) : ℤ :=
  let x := cursorX - width * (1 / 2)
  let x := x + camX
  let x := x * scaleX
  let x := (⌊x⌋ : ℚ) / 32
  truncQ x

/-- The y-axis cell computation of `editor::mouse_input`:
`y = height*0.5 - cursor_y; y += camera.translation.y;
y *= camera.scale.y; y = y.floor() / 32.0;` and finally `y as i32`.
Note the sign flip relative to the x axis. -/
def mouse_cell_y (cursorY height camY scaleY : ℚ) : ℤ :=
  let y := height * (1 / 2) - cursorY
  let y := y + camY
  let y := y * scaleY
  let y := (⌊y⌋ : ℚ) / 32
  truncQ y

/-! ### Persistence codec

Modelled from the spec: the serialization itself is `serde_json` over
the `#[derive(Serialize, Deserialize)]` implementations, which live
outside this repository's sources; the definitions below follow the
spec's persisted file format (§6): field names, fixed nesting, `null`
markers for absent optional fields, the rotation as its four
components, and a decoder that tolerates unknown extra fields (lookup
by field name). -/

/-- Modelled from the spec: the structured text values of the persisted
file format (JSON values; numbers are modelled as exact rationals). -/
inductive Json where
  | null : Json
  | num (q : ℚ) : Json
  | str (s : String) : Json
  | arr (elems : List Json) : Json
  | obj (fields : List (String × Json)) : Json

def TileType.toJson : TileType → Json
  | .Walkable => .str "Walkable"
  | .Blocked => .str "Blocked"

def TileType.fromJson? : Json → Option TileType
  | .str s =>
    if s = "Walkable" then some .Walkable
    else if s = "Blocked" then some .Blocked
    else none
  | _ => none

def ObjectType.toJson : ObjectType → Json
  | .Wall => .str "Wall"
  | .Door => .str "Door"

def ObjectType.fromJson? : Json → Option ObjectType
  | .str s =>
    if s = "Wall" then some .Wall
    else if s = "Door" then some .Door
    else none
  | _ => none

def ratFromJson? : Json → Option ℚ
  | .num q => some q
  | _ => none

def natFromJson? : Json → Option Nat
  | .num q => if 0 ≤ q.num ∧ q.den = 1 then some q.num.toNat else none
  | _ => none

def Quat.toJson (q : Quat) : Json :=
  .arr [.num q.x, .num q.y, .num q.z, .num q.w]

def Quat.fromJson? : Json → Option Quat
  | .arr [a, b, c, d] => do
    let x ← ratFromJson? a
    let y ← ratFromJson? b
    let z ← ratFromJson? c
    let w ← ratFromJson? d
    pure ⟨x, y, z, w⟩
  | _ => none

def Object.toJson (o : Object) : Json :=
  .obj [("object_type", o.object_type.toJson), ("rotation", o.rotation.toJson)]

def Object.fromJson? : Json → Option Object
  | .obj fs => do
    let tj ← fs.lookup "object_type"
    let t ← ObjectType.fromJson? tj
    let rj ← fs.lookup "rotation"
    let r ← Quat.fromJson? rj
    pure ⟨t, r⟩
  | _ => none

def FloorObject.toJson (f : FloorObject) : Json :=
  .obj [("object_type", f.object_type.toJson)]

def FloorObject.fromJson? : Json → Option FloorObject
  | .obj fs => do
    let tj ← fs.lookup "object_type"
    let t ← ObjectType.fromJson? tj
    pure ⟨t⟩
  | _ => none

def Connection.toJson (c : Connection) : Json :=
  .obj [("map", .str c.map),
        ("spawn", .arr [.num (c.spawn.1 : ℚ), .num (c.spawn.2 : ℚ)])]

def Connection.fromJson? : Json → Option Connection
  | .obj fs => do
    let mj ← fs.lookup "map"
    let ms ← match mj with
      | .str s => some s
      | _ => none
    let sj ← fs.lookup "spawn"
    let sp ← match sj with
      | .arr [r, c] => do
        let a ← natFromJson? r
        let b ← natFromJson? c
        pure (a, b)
      | _ => none
    pure ⟨ms, sp⟩
  | _ => none

/-- `null` for an absent optional field, the encoded value otherwise. -/
def optToJson (f : α → Json) : Option α → Json
  | none => .null
  | some a => f a

def optFromJson? (f : Json → Option α) : Json → Option (Option α)
  | .null => some none
  | j => (f j).map some

def Tile.toJson (t : Tile) : Json :=
  .obj [("tile_type", t.tile_type.toJson),
        ("object", optToJson Object.toJson t.object),
        ("floor_object", optToJson FloorObject.toJson t.floor_object),
        ("connection", optToJson Connection.toJson t.connection)]

def Tile.fromJson? : Json → Option Tile
  | .obj fs => do
    let tt ← (fs.lookup "tile_type").bind TileType.fromJson?
    let ob ← (fs.lookup "object").bind (optFromJson? Object.fromJson?)
    let fo ← (fs.lookup "floor_object").bind (optFromJson? FloorObject.fromJson?)
    let co ← (fs.lookup "connection").bind (optFromJson? Connection.fromJson?)
    pure ⟨tt, ob, fo, co⟩
  | _ => none

def decTileList : List Json → Option (List Tile)
  | [] => some []
  | j :: js => do
    let t ← Tile.fromJson? j
    let ts ← decTileList js
    pure (t :: ts)

def rowFromJson? : Json → Option (List Tile)
  | .arr js => decTileList js
  | _ => none

def decRowList : List Json → Option (List (List Tile))
  | [] => some []
  | j :: js => do
    let r ← rowFromJson? j
    let rs ← decRowList js
    pure (r :: rs)

/-- Modelled from the spec: `save` serializes the map as
`{ "tiles": [ [ tile, ... ], ... ] }`. -/
def Map.save (m : Map) : Json :=
  .obj [("tiles", .arr (m.tiles.map (fun row => Json.arr (row.map Tile.toJson))))]

/-- Modelled from the spec: `load` parses the persisted structure,
failing on a schema mismatch and ignoring unknown extra fields. -/
def Map.load (j : Json) : Option Map :=
  match j with
  | .obj fs => do
    let tj ← fs.lookup "tiles"
    match tj with
    | .arr rows => do
      let ts ← decRowList rows
      pure (⟨ts⟩ : Map)
    | _ => none
  | _ => none

/-! ### Closed forms for the four stanzas of `expand_to` -/

/-- A Blocked default tile and a Walkable tile, used in concrete grids. -/
def bTile : Tile := Tile.default

def wTile : Tile := { Tile.default with tile_type := TileType.Walkable }

theorem growRows_eq (x : ℤ) (l : List (List Tile)) :
    growRows x l = l ++ List.replicate ((x + 1).toNat - l.length)
      (List.replicate (l.headD []).length Tile.default) := by
  unfold growRows
  split
  · rfl
  · rename_i h
    have h0 : (x + 1).toNat - l.length = 0 := by omega
    rw [h0]
    simp

theorem widenRow_eq (y : ℤ) (row : List Tile) :
    widenRow y row = row ++ List.replicate ((y + 1).toNat - row.length) Tile.default := by
  unfold widenRow
  split
  · rfl
  · rename_i h
    have h0 : (y + 1).toNat - row.length = 0 := by omega
    rw [h0]
    simp

theorem frontRows_eq (x : ℤ) (l : List (List Tile)) :
    frontRows x l = List.replicate (-(x + 1)).toNat
      (List.replicate (l.headD []).length Tile.default) ++ l := by
  unfold frontRows
  split
  · rfl
  · rename_i h
    have h0 : (-(x + 1)).toNat = 0 := by omega
    rw [h0]
    simp

theorem frontCols_eq (y : ℤ) (l : List (List Tile)) :
    frontCols y l =
      l.map (fun row => List.replicate (-(y + 1)).toNat Tile.default ++ row) := by
  unfold frontCols
  split
  · rfl
  · rename_i h
    have h0 : (-(y + 1)).toNat = 0 := by omega
    rw [h0]
    simp

theorem headD_grow_length (l : List (List Tile)) (k : Nat) :
    ((l ++ List.replicate k
        (List.replicate (l.headD []).length Tile.default)).headD []).length =
      (l.headD []).length := by
  cases l with
  | nil =>
    cases k with
    | zero => rfl
    | succ n => simp [List.replicate]
  | cons a as => rfl

theorem widenRow_neg (y : ℤ) (h : y + 1 ≤ 0) (row : List Tile) :
    widenRow y row = row := by
  rw [widenRow_eq]
  have h0 : (y + 1).toNat - row.length = 0 := by omega
  rw [h0]
  simp

/-- Claim C10: a target index of exactly `-1` leaves its axis unchanged.
First conjunct: `expand_to (-1) x` keeps every existing row intact (no
column is created, widened, or inserted at the front), only rows appear
before or after them according to `x`.  Second conjunct: `expand_to y (-1)`
maps each row in place (no row is created or inserted at the front),
only per-row column operations according to `y` happen. -/
theorem expand_to_c10_neg_one :
    (∀ (m : Map) (x : ℤ), (m.expand_to (-1) x).tiles =
      List.replicate (-(x + 1)).toNat
          (List.replicate (m.tiles.headD []).length Tile.default)
        ++ m.tiles
        ++ List.replicate ((x + 1).toNat - m.tiles.length)
            (List.replicate (m.tiles.headD []).length Tile.default))
    ∧ (∀ (m : Map) (y : ℤ), (m.expand_to y (-1)).tiles =
      m.tiles.map (fun row =>
        List.replicate (-(y + 1)).toNat Tile.default
          ++ (row ++ List.replicate ((y + 1).toNat - row.length) Tile.default))) := by
  constructor
  · intro m x
    show frontCols (-1) (frontRows x ((growRows x m.tiles).map (widenRow (-1)))) = _
    rw [List.map_congr_left (fun row _ => widenRow_neg (-1) (by norm_num) row),
      List.map_id', frontCols_eq, frontRows_eq, growRows_eq, headD_grow_length]
    have h0 : (-((-1 : ℤ) + 1)).toNat = 0 := by norm_num
    rw [h0]
    simp [List.append_assoc]
  · intro m y
    show frontCols y (frontRows (-1) ((growRows (-1) m.tiles).map (widenRow y))) = _
    rw [growRows_eq]
    have h0 : ((-1 : ℤ) + 1).toNat - m.tiles.length = 0 := by norm_num
    rw [h0, List.replicate, List.append_nil, frontRows_eq]
    have h1 : (-((-1 : ℤ) + 1)).toNat = 0 := by norm_num
    rw [h1, List.replicate, List.nil_append, frontCols_eq, List.map_map]
    exact List.map_congr_left (fun row _ => by simp [Function.comp, widenRow_eq])

/-- Claim C2, counterexample: `expand_to(-2, 0)` on a 2×2 grid does not
produce a 4×2 grid with two default rows inserted at the front; it
produces a 2×3 grid with one default column inserted at the front of
every row. -/
theorem expand_to_c2_cex :
    Map.expand_to ⟨[[wTile, bTile], [bTile, bTile]]⟩ (-2) 0 ≠
      ⟨[[bTile, bTile], [bTile, bTile], [wTile, bTile], [bTile, bTile]]⟩ ∧
    Map.expand_to ⟨[[wTile, bTile], [bTile, bTile]]⟩ (-2) 0 =
      ⟨[[bTile, wTile, bTile], [bTile, bTile, bTile]]⟩ := by
  decide

/-- Claim C2, amended: the front-insertion branches of `expand_to` run
only when the target plus one is negative, and insert `-(target + 1)`
elements; moreover the first argument is the column axis and the second
the row axis.  First conjunct (`x + 1 < 0`): the grid becomes
`-(x + 1)` all-default rows followed by the original rows (shifted down
by exactly that amount) with only per-row column operations applied.
Second conjunct (`y + 1 < 0`): every row becomes `-(y + 1)` default
tiles followed by its original tiles (shifted right by exactly that
amount), with rows possibly inserted before or appended after whole. -/
theorem expand_to_c2_amended (m : Map) (y x : ℤ) :
    (x + 1 < 0 →
      (∀ row ∈ (m.expand_to y x).tiles.take (-(x + 1)).toNat, ∀ t ∈ row, t = Tile.default)
      ∧ (m.expand_to y x).tiles.drop (-(x + 1)).toNat =
          m.tiles.map (fun row =>
            List.replicate (-(y + 1)).toNat Tile.default
              ++ (row ++ List.replicate ((y + 1).toNat - row.length) Tile.default)))
    ∧ (y + 1 < 0 →
      (m.expand_to y x).tiles =
        (List.replicate (-(x + 1)).toNat
            (List.replicate (m.tiles.headD []).length Tile.default)
          ++ m.tiles
          ++ List.replicate ((x + 1).toNat - m.tiles.length)
              (List.replicate (m.tiles.headD []).length Tile.default)).map
          (fun row => List.replicate (-(y + 1)).toNat Tile.default ++ row)) := by
  constructor
  · intro hx
    have hg : growRows x m.tiles = m.tiles := by
      rw [growRows_eq]
      have h0 : (x + 1).toNat - m.tiles.length = 0 := by omega
      rw [h0]
      simp
    have hshape : (m.expand_to y x).tiles =
        List.replicate (-(x + 1)).toNat
            (List.replicate (-(y + 1)).toNat Tile.default
              ++ List.replicate ((m.tiles.map (widenRow y)).headD []).length Tile.default)
          ++ (m.tiles.map (widenRow y)).map
              (fun row => List.replicate (-(y + 1)).toNat Tile.default ++ row) := by
      show frontCols y (frontRows x ((growRows x m.tiles).map (widenRow y))) = _
      rw [hg, frontRows_eq, frontCols_eq, List.map_append, List.map_replicate]
    constructor
    · intro row hrow t ht
      rw [hshape] at hrow
      rw [List.take_left' (by rw [List.length_replicate])] at hrow
      rcases List.mem_replicate.mp hrow with ⟨-, rfl⟩
      rcases List.mem_append.mp ht with h | h
      · exact (List.mem_replicate.mp h).2
      · exact (List.mem_replicate.mp h).2
    · rw [hshape, List.drop_left' (by rw [List.length_replicate]), List.map_map]
      exact List.map_congr_left (fun row _ => by simp [Function.comp, widenRow_eq])
  · intro hy
    show frontCols y (frontRows x ((growRows x m.tiles).map (widenRow y))) = _
    rw [List.map_congr_left (fun row _ => widenRow_neg y (by omega) row),
      List.map_id', frontRows_eq, growRows_eq, headD_grow_length, frontCols_eq,
      List.append_assoc]

/-- Claim C2 witness: `expand_to(-2, 0)` on the marked 2×2 grid yields
the 2×3 grid with one default column inserted at the front. -/
theorem expand_to_c2_witness :
    (-2 : ℤ) + 1 < 0 ∧
    (Map.expand_to ⟨[[wTile, bTile], [bTile, bTile]]⟩ (-2) 0).tiles =
      [[bTile, wTile, bTile], [bTile, bTile, bTile]] := by
  refine ⟨by norm_num, ?_⟩
  have h := (expand_to_c2_amended ⟨[[wTile, bTile], [bTile, bTile]]⟩ (-2) 0).2 (by norm_num)
  rw [h]
  rfl

/-- Claim C8, counterexample: on a 1×2 grid the address `(0, 1)` is in
bounds (row 0 of 1, column 1 of 2), yet `expand_to(0, 1)` is not a
no-op: the second argument is compared against the row count, so the
grid grows to 2×2. -/
theorem expand_to_c8_cex :
    Map.expand_to ⟨[[wTile, bTile]]⟩ 0 1 ≠ ⟨[[wTile, bTile]]⟩ ∧
    Map.expand_to ⟨[[wTile, bTile]]⟩ 0 1 = ⟨[[wTile, bTile], [bTile, bTile]]⟩ := by
  decide

/-- Claim C8, amended: `expand_to(y, x)` is a no-op on content and
bounds when the first argument is within every row's length and the
second within the row count (the first argument is the column index,
the second the row index). -/
theorem expand_to_c8_amended (m : Map) (y x : ℤ)
    (hy0 : 0 ≤ y) (hy : ∀ row ∈ m.tiles, y < (row.length : ℤ))
    (hx0 : 0 ≤ x) (hx : x < (m.tiles.length : ℤ)) :
    m.expand_to y x = m := by
  show (⟨frontCols y (frontRows x ((growRows x m.tiles).map (widenRow y)))⟩ : Map) = m
  have h1 : growRows x m.tiles = m.tiles := by
    rw [growRows_eq]
    have h0 : (x + 1).toNat - m.tiles.length = 0 := by omega
    rw [h0]
    simp
  have h2 : m.tiles.map (widenRow y) = m.tiles := by
    rw [List.map_congr_left (g := fun row => row) (fun row hr => ?_), List.map_id']
    rw [widenRow_eq]
    have h0 : (y + 1).toNat - row.length = 0 := by
      have := hy row hr
      omega
    rw [h0]
    simp
  have h3 : frontRows x m.tiles = m.tiles := by
    rw [frontRows_eq]
    have h0 : (-(x + 1)).toNat = 0 := by omega
    rw [h0]
    simp
  have h4 : frontCols y m.tiles = m.tiles := by
    rw [frontCols_eq]
    have h0 : (-(y + 1)).toNat = 0 := by omega
    rw [h0]
    simp
  rw [h1, h2, h3, h4]

/-- Claim C8 witness: `expand_to(1, 1)` on a 2×2 grid is a no-op. -/
theorem expand_to_c8_witness :
    (0 : ℤ) ≤ 1 ∧
    Map.expand_to ⟨[[wTile, bTile], [bTile, bTile]]⟩ 1 1 =
      ⟨[[wTile, bTile], [bTile, bTile]]⟩ :=
  ⟨by norm_num,
    expand_to_c8_amended ⟨[[wTile, bTile], [bTile, bTile]]⟩ 1 1
      (by norm_num) (by decide) (by norm_num) (by decide)⟩

/-! ### Trim: concrete evaluations and dependence on tile types only -/

/-- Claim C1, evaluation at the spec's own scenario: on the 3×3
all-Blocked grid with tile `(1, 1)` Walkable, `trim` yields the 1×3 grid
`[Blocked, Walkable, Blocked]` — not the 1×1 Walkable grid: the per-row
column-bound defaults (`unwrap_or(0)` / `unwrap_or(row.len() - 1)`)
make every all-Blocked row force the full column range.  A subsequent
`pad(1)` therefore does not reproduce the input. -/
theorem trim_c1_scenario :
    Map.trim ⟨[[bTile, bTile, bTile], [bTile, wTile, bTile], [bTile, bTile, bTile]]⟩ =
      some ⟨[[bTile, wTile, bTile]]⟩ ∧
    (⟨[[bTile, wTile, bTile]]⟩ : Map) ≠ ⟨[[wTile]]⟩ ∧
    Map.pad ⟨[[bTile, wTile, bTile]]⟩ 1 ≠
      ⟨[[bTile, bTile, bTile], [bTile, wTile, bTile], [bTile, bTile, bTile]]⟩ := by
  decide

/-- Claim C3, evaluation: `trim` is not idempotent.  On the 2×2 grid
with only tile `(0, 1)` Walkable, one `trim` keeps the full column
range (the all-Blocked second row forces it), giving
`[[Blocked, Walkable]]`, and a second `trim` then shrinks it further to
`[[Walkable]]`. -/
theorem trim_c3_not_idempotent :
    (Map.trim ⟨[[bTile, wTile], [bTile, bTile]]⟩).bind Map.trim ≠
      Map.trim ⟨[[bTile, wTile], [bTile, bTile]]⟩ ∧
    Map.trim ⟨[[bTile, wTile], [bTile, bTile]]⟩ = some ⟨[[bTile, wTile]]⟩ ∧
    Map.trim ⟨[[bTile, wTile]]⟩ = some ⟨[[wTile]]⟩ := by
  decide

/-- Claim C4, evaluation: on the empty grid the eagerly evaluated
`unwrap_or` argument `self.tiles.len() - 1` underflows, so `trim`
aborts (a panic in a debug build) instead of being a no-op. -/
theorem trim_c4_empty : Map.trim ⟨[]⟩ = none := by
  decide

/-! ### Trim bounds depend only on the tile-type matrix -/

def rowTypes (row : List Tile) : List TileType := row.map Tile.tile_type

/-- The tile-type matrix of a grid: everything `trim` inspects. -/
def Map.typesOf (m : Map) : List (List TileType) := m.tiles.map rowTypes

def typeHasContent (tt : TileType) : Bool := tt ≠ TileType.Blocked

def rowHasContentT (row : List TileType) : Bool := row.any typeHasContent

/-- `rowUppers` recomputed on the tile-type matrix. -/
def rowUppersT : List (List TileType) → Option (List Nat)
  | [] => some []
  | row :: rest => do
    let d ← csub row.length 1
    let v := (lastIdx? typeHasContent row).getD d
    let vs ← rowUppersT rest
    pure (v :: vs)

/-- `vubDefault` recomputed on the tile-type matrix. -/
def vubDefaultT (tss : List (List TileType)) : Option Nat :=
  match tss.head? with
  | none => some 0
  | some row => csub row.length 1

/-- `Map.trimBounds` recomputed on the tile-type matrix. -/
def trimBoundsT (tss : List (List TileType)) : Option (Nat × Nat × Nat × Nat) := do
  let hlb := (firstIdx? rowHasContentT tss).getD 0
  let hubD ← csub tss.length 1
  let hub := (lastIdx? rowHasContentT tss).getD hubD
  let vlb := (minN? (tss.map (fun row => (firstIdx? typeHasContent row).getD 0))).getD 0
  let us ← rowUppersT tss
  let vubD ← vubDefaultT tss
  let vub := (maxN? us).getD vubD
  pure (hlb, hub, vlb, vub)

theorem firstIdx?_map (q : β → Bool) (f : α → β) (l : List α) :
    firstIdx? q (l.map f) = firstIdx? (fun a => q (f a)) l := by
  induction l with
  | nil => rfl
  | cons a as ih => simp [firstIdx?, ih]

theorem lastIdx?_map (q : β → Bool) (f : α → β) (l : List α) :
    lastIdx? q (l.map f) = lastIdx? (fun a => q (f a)) l := by
  induction l with
  | nil => rfl
  | cons a as ih => simp [lastIdx?, ih]

theorem rowHasContent_eq (row : List Tile) :
    rowHasContentT (rowTypes row) = rowHasContent row := by
  induction row with
  | nil => rfl
  | cons t ts ih =>
    simp only [rowHasContentT, rowTypes, rowHasContent, List.map_cons, List.any_cons] at ih ⊢
    rw [ih]
    rfl

theorem firstIdx?_types (row : List Tile) :
    firstIdx? typeHasContent (rowTypes row) = firstIdx? tileHasContent row := by
  rw [rowTypes, firstIdx?_map]
  rfl

theorem lastIdx?_types (row : List Tile) :
    lastIdx? typeHasContent (rowTypes row) = lastIdx? tileHasContent row := by
  rw [rowTypes, lastIdx?_map]
  rfl

theorem rowUppersT_eq (l : List (List Tile)) :
    rowUppersT (l.map rowTypes) = rowUppers l := by
  induction l with
  | nil => rfl
  | cons row rest ih =>
    simp only [List.map_cons, rowUppersT, rowUppers]
    rw [ih, lastIdx?_types]
    have hlen : (rowTypes row).length = row.length := by
      rw [rowTypes, List.length_map]
    rw [hlen]

theorem trimBounds_typesOf (m : Map) : m.trimBounds = trimBoundsT m.typesOf := by
  obtain ⟨tiles⟩ := m
  show Map.trimBounds ⟨tiles⟩ = trimBoundsT (tiles.map rowTypes)
  unfold Map.trimBounds trimBoundsT
  rw [List.length_map, rowUppersT_eq]
  rw [show firstIdx? rowHasContentT (tiles.map rowTypes) = firstIdx? rowHasContent tiles by
    rw [firstIdx?_map]
    exact congrFun (congrArg firstIdx? (funext rowHasContent_eq)) tiles]
  rw [show lastIdx? rowHasContentT (tiles.map rowTypes) = lastIdx? rowHasContent tiles by
    rw [lastIdx?_map]
    exact congrFun (congrArg lastIdx? (funext rowHasContent_eq)) tiles]
  rw [show (tiles.map rowTypes).map (fun row => (firstIdx? typeHasContent row).getD 0) =
      tiles.map (fun row => (firstIdx? tileHasContent row).getD 0) by
    rw [List.map_map]
    exact List.map_congr_left (fun row _ => by
      show (firstIdx? typeHasContent (rowTypes row)).getD 0 = _
      rw [firstIdx?_types])]
  rw [show vubDefaultT (tiles.map rowTypes) = vubDefault tiles by
    cases tiles with
    | nil => rfl
    | cons r rs =>
      show csub (rowTypes r).length 1 = csub r.length 1
      rw [rowTypes, List.length_map]]

/-- Claim C9: `trim` determines its kept rectangle solely from the
tile-type matrix — tiles carrying objects, floor objects or connections
on a Blocked tile change nothing (first conjunct) — and the output is
exactly the restriction of the grid to that rectangle, so every tile
outside it is discarded (second conjunct). -/
theorem trim_c9_types_only :
    (∀ (m m' : Map), m.typesOf = m'.typesOf → m.trimBounds = m'.trimBounds)
    ∧ (∀ (m : Map) (hlb hub vlb vub : Nat),
        m.trimBounds = some (hlb, hub, vlb, vub) →
        m.trim = some (m.restrict hlb hub vlb vub)) := by
  constructor
  · intro m m' h
    rw [trimBounds_typesOf, trimBounds_typesOf, h]
  · intro m hlb hub vlb vub h
    unfold Map.trim
    rw [h]
    rfl

/-- A Blocked tile additionally carrying a floor object. -/
def bTileObj : Tile := { Tile.default with floor_object := some ⟨ObjectType.Wall⟩ }

/-- Claim C9 witness: decorating the Blocked tile of `[[W, B]]` with a
floor object leaves the trim bounds unchanged, and `trim` returns the
restriction to those bounds. -/
theorem trim_c9_witness :
    Map.trimBounds ⟨[[wTile, bTile]]⟩ = Map.trimBounds ⟨[[wTile, bTileObj]]⟩ ∧
    Map.trim ⟨[[wTile, bTile]]⟩ = some (Map.restrict ⟨[[wTile, bTile]]⟩ 0 0 0 0) := by
  constructor
  · exact trim_c9_types_only.1 _ _ (by decide)
  · exact trim_c9_types_only.2 _ 0 0 0 0 (by decide)

/-! ### Rectangularity invariant -/

/-- Rectangularity: every row has the length of row 0. -/
def Map.Rect (m : Map) : Prop :=
  ∀ row ∈ m.tiles, row.length = (m.tiles.headD []).length

instance (m : Map) : Decidable m.Rect :=
  inferInstanceAs (Decidable (∀ row ∈ m.tiles, row.length = (m.tiles.headD []).length))

theorem rect_of_uniform {l : List (List Tile)} {W : Nat}
    (h : ∀ row ∈ l, row.length = W) :
    ∀ row ∈ l, row.length = (l.headD []).length := by
  intro row hr
  cases l with
  | nil => cases hr
  | cons a as =>
    show row.length = a.length
    rw [h row hr]
    exact (h a (List.mem_cons_self a as)).symm

theorem expand_to_rect (m : Map) (y x : ℤ) (hm : m.Rect) :
    (m.expand_to y x).Rect := by
  have ht1 : ∀ row ∈ growRows x m.tiles, row.length = (m.tiles.headD []).length := by
    rw [growRows_eq]
    intro row hr
    rcases List.mem_append.mp hr with h | h
    · exact hm row h
    · rw [(List.mem_replicate.mp h).2]
      exact List.length_replicate _ _
  have ht2 : ∀ row ∈ (growRows x m.tiles).map (widenRow y),
      row.length = (m.tiles.headD []).length
        + ((y + 1).toNat - (m.tiles.headD []).length) := by
    intro row hr
    rcases List.mem_map.mp hr with ⟨r, hr', rfl⟩
    rw [widenRow_eq, List.length_append, List.length_replicate, ht1 r hr']
  have ht3 : ∀ row ∈ frontRows x ((growRows x m.tiles).map (widenRow y)),
      row.length = ((((growRows x m.tiles).map (widenRow y)).headD [])).length := by
    rw [frontRows_eq]
    intro row hr
    rcases List.mem_append.mp hr with h | h
    · rw [(List.mem_replicate.mp h).2]
      exact List.length_replicate _ _
    · cases hc : (growRows x m.tiles).map (widenRow y) with
      | nil => rw [hc] at h; cases h
      | cons a as =>
        show row.length = a.length
        rw [ht2 row h]
        exact (ht2 a (by rw [hc]; exact List.mem_cons_self a as)).symm
  have hfinal : ∀ row ∈ frontCols y (frontRows x ((growRows x m.tiles).map (widenRow y))),
      row.length = (-(y + 1)).toNat
        + ((((growRows x m.tiles).map (widenRow y)).headD [])).length := by
    rw [frontCols_eq]
    intro row hr
    rcases List.mem_map.mp hr with ⟨r, hr', rfl⟩
    rw [List.length_append, List.length_replicate, ht3 r hr']
  exact rect_of_uniform hfinal

/-- A fold by a step that preserves an invariant preserves it. -/
theorem foldl_preserve {β : Type} (P : List (List Tile) → Prop)
    (f : List (List Tile) → β → List (List Tile))
    (hf : ∀ acc b, P acc → P (f acc b)) :
    ∀ (bs : List β) (acc), P acc → P (bs.foldl f acc) := by
  intro bs
  induction bs with
  | nil => intro acc h; exact h
  | cons b bs ih => intro acc h; exact ih _ (hf acc b h)

/-- The copying write of `Map::pad` preserves uniform row width. -/
theorem set_preserve (acc : List (List Tile)) (W i j : Nat) (t : Tile)
    (h : ∀ r ∈ acc, r.length = W) :
    ∀ r ∈ acc.set i ((acc.getD i []).set j t), r.length = W := by
  intro r hr
  by_cases hi : i < acc.length
  · rcases List.mem_or_eq_of_mem_set hr with h1 | h1
    · exact h r h1
    · rw [h1, List.length_set, List.getD_eq_getElem acc [] hi]
      exact h _ (List.getElem_mem hi)
  · rw [List.set_eq_of_length_le (le_of_not_lt hi)] at hr
    exact h r hr

theorem pad_rect (m : Map) (p : Nat) (_hm : m.Rect) : (m.pad p).Rect := by
  have hmain : ∀ row ∈ (m.pad p).tiles,
      row.length = (m.tiles.headD []).length + p * 2 := by
    show ∀ row ∈ m.tiles.enum.foldl (fun acc pp =>
        pp.2.enum.foldl (fun acc2 q =>
          acc2.set (pp.1 + p) ((acc2.getD (pp.1 + p) []).set (q.1 + p) q.2)) acc)
      (List.replicate (m.tiles.length + p * 2)
        (List.replicate ((m.tiles.headD []).length + p * 2) Tile.default)),
      row.length = (m.tiles.headD []).length + p * 2
    refine foldl_preserve
      (fun acc => ∀ r ∈ acc, r.length = (m.tiles.headD []).length + p * 2)
      _ ?_ m.tiles.enum _ ?_
    · intro acc b hacc
      refine foldl_preserve
        (fun acc => ∀ r ∈ acc, r.length = (m.tiles.headD []).length + p * 2)
        _ ?_ b.2.enum acc hacc
      intro acc2 q hacc2
      exact set_preserve acc2 _ _ _ _ hacc2
    · intro r hr
      rw [(List.mem_replicate.mp hr).2]
      exact List.length_replicate _ _
  exact rect_of_uniform hmain

theorem mem_enumFrom_snd {α : Type} {p : Nat × α} :
    ∀ {l : List α} {n : Nat}, p ∈ List.enumFrom n l → p.2 ∈ l := by
  intro l
  induction l with
  | nil => intro n h; cases h
  | cons a as ih =>
    intro n h
    rw [List.enumFrom_cons] at h
    rcases List.mem_cons.mp h with h | h
    · rw [h]
      exact List.mem_cons_self a as
    · exact List.mem_cons_of_mem a (ih h)

theorem length_filter_enumFrom {α : Type} (pred : Nat → Bool) (l : List α) :
    ∀ n, ((List.enumFrom n l).filter (fun q => pred q.1)).length =
      ((List.range' n l.length).filter pred).length := by
  induction l with
  | nil => intro n; rfl
  | cons a as ih =>
    intro n
    rw [List.enumFrom_cons, List.length_cons, List.range'_succ]
    cases hp : pred n with
    | false => simp [List.filter_cons, hp, ih (n + 1)]
    | true => simp [List.filter_cons, hp, ih (n + 1)]

theorem trim_rect (m m' : Map) (hm : m.Rect) (h : m.trim = some m') : m'.Rect := by
  unfold Map.trim at h
  cases hb : m.trimBounds with
  | none => rw [hb] at h; cases h
  | some b =>
    obtain ⟨hlb, hub, vlb, vub⟩ := b
    rw [hb] at h
    have h' : some (m.restrict hlb hub vlb vub) = some m' := h
    obtain rfl := (Option.some.inj h').symm
    have hmain : ∀ row ∈ (m.restrict hlb hub vlb vub).tiles,
        row.length =
          ((List.range' 0 (m.tiles.headD []).length).filter (idxIn vlb vub)).length := by
      intro row hr
      rcases List.mem_map.mp hr with ⟨pq, hpq, rfl⟩
      rw [List.length_map]
      have h2 : pq.2 ∈ m.tiles := mem_enumFrom_snd (List.mem_filter.mp hpq).1
      have h3 : pq.2.length = (m.tiles.headD []).length := hm _ h2
      rw [show pq.2.enum = List.enumFrom 0 pq.2 from rfl,
        length_filter_enumFrom (idxIn vlb vub) pq.2 0, h3]
    exact rect_of_uniform hmain

/-- Claim C5: rectangularity is an invariant of every BoundsEngine
operation — `expand_to` with any integer arguments, `pad` with any
margin, and `trim` whenever it returns a grid. -/
theorem rect_c5_invariant :
    (∀ (m : Map) (y x : ℤ), m.Rect → (m.expand_to y x).Rect)
    ∧ (∀ (m : Map) (p : Nat), m.Rect → (m.pad p).Rect)
    ∧ (∀ (m m' : Map), m.Rect → m.trim = some m' → m'.Rect) :=
  ⟨fun m y x hm => expand_to_rect m y x hm,
   fun m p hm => pad_rect m p hm,
   fun m m' hm h => trim_rect m m' hm h⟩

/-- Claim C5 witness: the invariant applied to concrete grids and
arguments for each of the three operations. -/
theorem rect_c5_witness :
    (Map.expand_to ⟨[[wTile, bTile]]⟩ 3 (-3)).Rect ∧
    (Map.pad ⟨[[wTile, bTile]]⟩ 1).Rect ∧
    (⟨[[wTile]]⟩ : Map).Rect :=
  ⟨rect_c5_invariant.1 ⟨[[wTile, bTile]]⟩ 3 (-3) (by decide),
   rect_c5_invariant.2.1 ⟨[[wTile, bTile]]⟩ 1 (by decide),
   rect_c5_invariant.2.2 ⟨[[wTile, bTile]]⟩ ⟨[[wTile]]⟩ (by decide) (by decide)⟩

/-! ### Screen-to-grid mapping -/

theorem mouse_cell_x_eq (cx w px sx : ℚ) :
    mouse_cell_x cx w px sx = truncQ ((⌊(cx - w * (1 / 2) + px) * sx⌋ : ℚ) / 32) := rfl

theorem mouse_cell_y_eq (cy h py sy : ℚ) :
    mouse_cell_y cy h py sy = truncQ ((⌊(h * (1 / 2) - cy + py) * sy⌋ : ℚ) / 32) := rfl

theorem truncQ_nonneg {q : ℚ} (h : 0 ≤ q) : truncQ q = ⌊q⌋ := by
  rw [truncQ, if_pos h]

/-- Flooring first and then floor-dividing by 32 agrees with directly
floor-dividing by 32. -/
theorem floor_int_div32 (s : ℚ) : ⌊(⌊s⌋ : ℚ) / 32⌋ = ⌊s / 32⌋ := by
  have h32 : (0 : ℚ) < 32 := by norm_num
  apply le_antisymm
  · exact Int.floor_le_floor (div_le_div_of_nonneg_right (Int.floor_le s) (le_of_lt h32))
  · rw [Int.le_floor, le_div_iff₀ h32]
    have h1 : (⌊s / 32⌋ * 32 : ℤ) ≤ ⌊s⌋ := by
      rw [Int.le_floor]
      push_cast
      calc (⌊s / 32⌋ : ℚ) * 32 ≤ s / 32 * 32 :=
            mul_le_mul_of_nonneg_right (Int.floor_le _) (by norm_num)
        _ = s := by field_simp
    exact_mod_cast h1

/-- Claim C6, amended: the editor computes each cell as
`trunc(floor(scaled) / 32)` (truncation toward zero), which agrees with
the claimed `floor(scaled / 32)` whenever `scaled ≥ 0` (first two
conjuncts, one per axis; note the y axis measures from the viewport
centre downward-flipped).  The deadzone `[0, 32)` maps to cell `0`
(third conjunct) and the exact viewport centre with zero pan and zoom 1
maps to cell `(0, 0)` (fourth conjunct). -/
theorem mouse_cell_c6_amended (cursorX width camX cursorY height camY : ℚ) :
    (∀ scaleX : ℚ, 0 ≤ (cursorX - width / 2 + camX) * scaleX →
      mouse_cell_x cursorX width camX scaleX =
        ⌊(cursorX - width / 2 + camX) * scaleX / 32⌋)
    ∧ (∀ scaleY : ℚ, 0 ≤ (height / 2 - cursorY + camY) * scaleY →
      mouse_cell_y cursorY height camY scaleY =
        ⌊(height / 2 - cursorY + camY) * scaleY / 32⌋)
    ∧ (∀ scaleX : ℚ, 0 ≤ (cursorX - width / 2 + camX) * scaleX →
        (cursorX - width / 2 + camX) * scaleX < 32 →
        mouse_cell_x cursorX width camX scaleX = 0)
    ∧ (mouse_cell_x (width / 2) width 0 1 = 0
        ∧ mouse_cell_y (height / 2) height 0 1 = 0) := by
  have hx : ∀ scaleX : ℚ, 0 ≤ (cursorX - width / 2 + camX) * scaleX →
      mouse_cell_x cursorX width camX scaleX =
        ⌊(cursorX - width / 2 + camX) * scaleX / 32⌋ := by
    intro sx hsx
    rw [mouse_cell_x_eq,
      show (cursorX - width * (1 / 2) + camX) * sx
        = (cursorX - width / 2 + camX) * sx by ring,
      truncQ_nonneg (div_nonneg (by exact_mod_cast Int.floor_nonneg.mpr hsx)
        (by norm_num))]
    exact floor_int_div32 _
  refine ⟨hx, ?_, ?_, ?_, ?_⟩
  · intro sy hsy
    rw [mouse_cell_y_eq,
      show (height * (1 / 2) - cursorY + camY) * sy
        = (height / 2 - cursorY + camY) * sy by ring,
      truncQ_nonneg (div_nonneg (by exact_mod_cast Int.floor_nonneg.mpr hsy)
        (by norm_num))]
    exact floor_int_div32 _
  · intro sx hsx hlt
    rw [hx sx hsx]
    rw [Int.floor_eq_zero_iff]
    constructor
    · exact div_nonneg hsx (by norm_num)
    · rwa [div_lt_one (by norm_num : (0 : ℚ) < 32)]
  · rw [mouse_cell_x_eq,
      show (width / 2 - width * (1 / 2) + 0) * 1 = (0 : ℚ) by ring]
    simp [truncQ]
  · rw [mouse_cell_y_eq,
      show (height * (1 / 2) - height / 2 + 0) * 1 = (0 : ℚ) by ring]
    simp [truncQ]

/-- Claim C6, counterexample: a cursor 16 pixels left of the centre of
an 800-pixel-wide viewport, with zero pan and zoom 1, has scaled world
coordinate `-16`; the claimed formula gives `⌊-16/32⌋ = -1`, but the
code computes `trunc(⌊-16⌋/32) = trunc(-1/2) = 0`. -/
theorem mouse_cell_c6_cex :
    mouse_cell_x 384 800 0 1 ≠ ⌊((384 : ℚ) - 800 / 2 + 0) * 1 / 32⌋ := by
  rw [mouse_cell_x_eq]
  norm_num [truncQ]
  rw [Int.ceil_neg]
  norm_num [Int.floor_eq_iff]

/-- Claim C6 witness: a cursor 16 pixels right of the centre lies in
the deadzone `[0, 32)` and maps to cell 0. -/
theorem mouse_cell_c6_witness :
    (0 : ℚ) ≤ ((416 : ℚ) - 800 / 2 + 0) * 1 ∧ mouse_cell_x 416 800 0 1 = 0 := by
  constructor
  · norm_num
  · exact (mouse_cell_c6_amended 416 800 0 300 600 0).2.2.1 1 (by norm_num) (by norm_num)

/-! ### Persistence round-trip -/

theorem tiletype_roundtrip (t : TileType) :
    TileType.fromJson? t.toJson = some t := by
  cases t <;> rfl

theorem objecttype_roundtrip (o : ObjectType) :
    ObjectType.fromJson? o.toJson = some o := by
  cases o <;> rfl

theorem quat_roundtrip (q : Quat) : Quat.fromJson? q.toJson = some q := by
  obtain ⟨a, b, c, d⟩ := q
  rfl

theorem nat_roundtrip (n : Nat) : natFromJson? (.num (n : ℚ)) = some n := by
  simp [natFromJson?, Rat.num_natCast, Rat.den_natCast, Int.toNat_natCast]

theorem object_roundtrip (o : Object) : Object.fromJson? o.toJson = some o := by
  obtain ⟨t, r⟩ := o
  simp [Object.toJson, Object.fromJson?, List.lookup, objecttype_roundtrip,
    quat_roundtrip]

theorem floorobject_roundtrip (f : FloorObject) :
    FloorObject.fromJson? f.toJson = some f := by
  obtain ⟨t⟩ := f
  simp [FloorObject.toJson, FloorObject.fromJson?, List.lookup, objecttype_roundtrip]

theorem connection_roundtrip (c : Connection) :
    Connection.fromJson? c.toJson = some c := by
  obtain ⟨ms, s1, s2⟩ := c
  simp [Connection.toJson, Connection.fromJson?, List.lookup, nat_roundtrip]

theorem optFromJson?_not_null {α : Type} (g : Json → Option α) {j : Json}
    (h : j ≠ .null) : optFromJson? g j = (g j).map some := by
  cases j with
  | null => exact absurd rfl h
  | num q => rfl
  | str s => rfl
  | arr xs => rfl
  | obj fs => rfl

theorem opt_roundtrip {α : Type} (f : α → Json) (g : Json → Option α)
    (hfg : ∀ a, g (f a) = some a) (hnull : ∀ a, f a ≠ .null) (o : Option α) :
    optFromJson? g (optToJson f o) = some o := by
  cases o with
  | none => rfl
  | some a =>
    show optFromJson? g (f a) = some (some a)
    rw [optFromJson?_not_null g (hnull a), hfg]
    rfl

theorem tile_roundtrip (t : Tile) : Tile.fromJson? t.toJson = some t := by
  obtain ⟨tt, ob, fo, co⟩ := t
  simp only [Tile.toJson, Tile.fromJson?, List.lookup]
  simp [tiletype_roundtrip,
    opt_roundtrip Object.toJson Object.fromJson? object_roundtrip
      (fun a => by simp [Object.toJson]) ob,
    opt_roundtrip FloorObject.toJson FloorObject.fromJson? floorobject_roundtrip
      (fun a => by simp [FloorObject.toJson]) fo,
    opt_roundtrip Connection.toJson Connection.fromJson? connection_roundtrip
      (fun a => by simp [Connection.toJson]) co]

theorem decTileList_map (row : List Tile) :
    decTileList (row.map Tile.toJson) = some row := by
  induction row with
  | nil => rfl
  | cons t ts ih => simp [decTileList, tile_roundtrip, ih]

theorem decRowList_map (tiles : List (List Tile)) :
    decRowList (tiles.map (fun row => Json.arr (row.map Tile.toJson))) = some tiles := by
  induction tiles with
  | nil => rfl
  | cons r rs ih => simp [decRowList, rowFromJson?, decTileList_map, ih]

/-- Claim C7: serializing any map and deserializing the result
reproduces an equal map — every tile type, optional object, floor
object and connection (absent or present), and every rotation
component round-trips. -/
theorem save_load_c7 (m : Map) : Map.load m.save = some m := by
  obtain ⟨tiles⟩ := m
  simp [Map.save, Map.load, List.lookup, decRowList_map]
